import Mathlib

/-!
# Verification of the `hello-dagger` pipeline module

A shallow embedding of `.dagger/src/hello_dagger/main.py` (class `HelloDagger`).

The module is orchestration glue around external collaborators: the container
runtime, the LLM execution engine, the GitHub issue tracker, the image
registry, and Python's global RNG.  We embed those collaborators as an oracle
structure `World` of pure functions, and each `HelloDagger` method as a Lean
function that mirrors the Python control flow, returning its `Except` result
together with the list of collaborator calls it performed (the trace), in
order.

Dagger values (`dagger.Directory`, `dagger.Container`) are lazy recipes in
the source; we embed them as symbolic recipe terms.  Evaluation happens at
`await` points, where the `World` oracle is consulted and a trace event is
recorded.
-/

namespace HelloDagger

/-- A file path inside a directory tree, as components. -/
abbrev Path := List String

mutual

/-- A `dagger.Directory`: either a concrete file tree, a directory extracted
from a container (`Container.directory`), a view with a subtree removed
(`without_directory`), or the current module's own source
(`dag.current_module().source()`). -/
inductive Dir where
  | files : List (Path × String) → Dir
  | containerDir : Container → String → Dir
  | without : Dir → String → Dir
  | moduleSource : Dir

/-- One chained operation on a `dagger.Container` recipe. -/
inductive ContainerOp where
  | withDirectory : String → Dir → ContainerOp
  | withMountedCache : String → String → ContainerOp
  | withWorkdir : String → ContainerOp
  | withExec : List String → ContainerOp
  | withExposedPort : Nat → ContainerOp

/-- A `dagger.Container` recipe: a base image plus a chain of operations. -/
inductive Container where
  | base : String → Container
  | step : Container → ContainerOp → Container

end

def Container.with_directory (c : Container) (path : String) (d : Dir) : Container :=
  .step c (.withDirectory path d)

def Container.with_mounted_cache (c : Container) (path key : String) : Container :=
  .step c (.withMountedCache path key)

def Container.with_workdir (c : Container) (path : String) : Container :=
  .step c (.withWorkdir path)

def Container.with_exec (c : Container) (args : List String) : Container :=
  .step c (.withExec args)

def Container.with_exposed_port (c : Container) (port : Nat) : Container :=
  .step c (.withExposedPort port)

/-- `container.directory(path)`: the (lazy) directory at `path` inside the
evaluated container. -/
def Container.directory (c : Container) (path : String) : Dir :=
  .containerDir c path

/-- `directory.without_directory(name)`: a view of the directory with the
named subtree removed.  Pure and non-mutating: it returns a new value. -/
def Dir.without_directory (d : Dir) (name : String) : Dir :=
  .without d name

/-- `directory.file(name)`: a (lazy) reference to one file of a directory. -/
structure File where
  dir : Dir
  name : String

/-- `dag.current_module().source().file("develop_prompt.md")` used by
`develop`. -/
def Dir.file (d : Dir) (name : String) : File :=
  ⟨d, name⟩

/-- Modelled from the spec: the Capability Workspace (§4.2) wraps a source
tree; `dag.workspace(source)` constructs it and `.source()` reads the tree
back.  The workspace module itself is an external dagger module, not part of
this repository's sources. -/
structure Workspace where
  source : Dir

/-- Direction of a slot of a Typed Environment Binding. -/
inductive Direction where
  | input
  | output
deriving DecidableEq

/-- A value bound to an input slot: a plain string or a workspace. -/
inductive SlotVal where
  | str : String → SlotVal
  | workspace : Workspace → SlotVal

/-- One named, directed, described slot of an environment binding. -/
structure Slot where
  name : String
  direction : Direction
  value : Option SlotVal
  desc : String

/-- A `dagger.Env`: the Typed Environment Binding, an ordered list of slots. -/
structure Env where
  slots : List Slot

/-- `dag.env()`. -/
def Env.empty : Env := ⟨[]⟩

/-- `env.with_string_input(name, value, description)`. -/
def Env.with_string_input (e : Env) (name value desc : String) : Env :=
  ⟨e.slots ++ [⟨name, .input, some (.str value), desc⟩]⟩

/-- `env.with_workspace_input(name, value, description)`. -/
def Env.with_workspace_input (e : Env) (name : String) (w : Workspace)
    (desc : String) : Env :=
  ⟨e.slots ++ [⟨name, .input, some (.workspace w), desc⟩]⟩

/-- `env.with_workspace_output(name, description)`: declares an output slot,
with no value yet. -/
def Env.with_workspace_output (e : Env) (name desc : String) : Env :=
  ⟨e.slots ++ [⟨name, .output, none, desc⟩]⟩

/-- The errors surfaced by the module.  `execError` carries the captured
stdout/stderr of a failed container command (the spec's `TestFailure` /
`PostAgentValidationFailure` when raised by the test gate); the remaining
constructors are the failure modes of the engine-output extraction, the
tracker and the registry. -/
inductive Err where
  | execError (stdout stderr : String)
  | unboundOutput (name : String)
  | incompleteRun (name : String)
  | typeMismatch (name : String)
  | trackerError (msg : String)
  | publishError (msg : String)

/-- Outcome of evaluating a container recipe: exit code of its command chain
plus captured output. -/
structure ExecOutcome where
  exitCode : Nat
  stdout : String
  stderr : String

/-- A GitHub issue record: read-only `(title, body, url)`. -/
structure Issue where
  title : String
  body : String
  url : String

/-- An opaque credential handle (`dagger.Secret`); never inspected. -/
structure Secret where
  token : String

/-- The external collaborators, as a deterministic oracle: the container
runtime (`run`, `dirFiles`), the image registry (`publishRef`), the LLM
execution engine (`llm`, returning the binding with outputs populated or an
engine failure), the issue tracker (`readIssue`, `createPullRequest`), the
module's own source files, and the stream of values produced by Python's
global `random` generator (`rand n` is the `n`-th draw). -/
structure World where
  run : Container → ExecOutcome
  dirFiles : Container → String → List (Path × String)
  publishRef : Container → String → Except Err String
  llm : Env → File → Except Err Env
  readIssue : Secret → String → Nat → Except Err Issue
  createPullRequest : Secret → String → String → String → Dir → Except Err String
  moduleFiles : List (Path × String)
  rand : Nat → Nat

/-- Modelled from the spec: the container runtime's `withExec … stdout`
contract (§6): evaluating the recipe returns the captured stdout on exit
code 0 and fails with the captured output otherwise.  The runtime itself is
external to this repository. -/
def containerStdout (w : World) (c : Container) : Except Err String :=
  let o := w.run c
  if o.exitCode = 0 then .ok o.stdout else .error (.execError o.stdout o.stderr)

/-- The concrete file listing denoted by a directory recipe under a world. -/
def Dir.resolve (w : World) : Dir → List (Path × String)
  | .files fs => fs
  | .containerDir c p => w.dirFiles c p
  | .without d name =>
      (d.resolve w).filter (fun f => f.1.head? ≠ some name)
  | .moduleSource => w.moduleFiles

/-- One collaborator call performed by a method, recorded in order. -/
inductive Event where
  | execStdout : Container → Event
  | publishImage : Container → String → Event
  | llmRun : Env → File → Event
  | issueRead : String → Nat → Event
  | createPR : String → String → String → Dir → Event

/-- `HelloDagger.build_env(source)`: the `node:21-slim` container with the
source mounted at `/src`, the npm cache mounted at `/root/.npm` keyed by the
cache volume `"node"`, workdir `/src`, after `npm install`. -/
def build_env (source : Dir) : Container :=
  ((((Container.base "node:21-slim").with_directory "/src" source).with_mounted_cache
      "/root/.npm" "node").with_workdir "/src").with_exec ["npm", "install"]

/-- The container whose evaluation is `HelloDagger.test(source)`: the test
command run inside `build_env source`. -/
def testContainer (source : Dir) : Container :=
  (build_env source).with_exec ["npm", "run", "test:unit", "run"]

/-- `HelloDagger.test(source)`: awaits the stdout of the test command inside
the build environment.  Returns the result and the trace of collaborator
calls. -/
def test (w : World) (source : Dir) : Except Err String × List Event :=
  (containerStdout w (testContainer source), [.execStdout (testContainer source)])

/-- `HelloDagger.build(source)`: copies `./dist` of the built environment
into an `nginx:1.25-alpine` image and exposes port 80.  A pure recipe; no
evaluation happens here. -/
def build (source : Dir) : Container :=
  let b := ((build_env source).with_exec ["npm", "run", "build"]).directory "./dist"
  ((Container.base "nginx:1.25-alpine").with_directory "/usr/share/nginx/html" b).with_exposed_port 80

/-- `HelloDagger.publish(source)`: awaits `test`, then publishes the built
image under the tag `ttl.sh/hello-dagger-{random.randrange(10**8)}`.  `ρ` is
the position in the global random stream at the time of the call; Python's
`random.randrange(10**8)` is embedded as `w.rand ρ % 10 ^ 8`. -/
def publish (w : World) (ρ : Nat) (source : Dir) : Except Err String × List Event :=
  match test w source with
  | (.error e, tr) => (.error e, tr)
  | (.ok _, tr) =>
      let tag := "ttl.sh/hello-dagger-" ++ toString (w.rand ρ % 10 ^ 8)
      match w.publishRef (build source) tag with
      | .error e => (.error e, tr ++ [.publishImage (build source) tag])
      | .ok ref => (.ok ref, tr ++ [.publishImage (build source) tag])

/-- Modelled from the spec: `env().output(name).as_workspace()` (§4.3, §4.4)
of dagger's binding machinery, which is external to this repository.  Fails
with `unboundOutput` if `name` was never declared as an output, with
`incompleteRun` if the engine completed without populating the declared
output, and with `typeMismatch` if the populated value is not a workspace. -/
def outputWorkspace (e : Env) (name : String) : Except Err Workspace :=
  match e.slots.find? (fun s => s.name == name && s.direction == Direction.output) with
  | none => .error (.unboundOutput name)
  | some s =>
      match s.value with
      | some (.workspace ws) => .ok ws
      | some (.str _) => .error (.typeMismatch name)
      | none => .error (.incompleteRun name)

/-- The Typed Environment Binding constructed by `develop`: the string input
`assignment`, the workspace input `workspace` wrapping the source, and the
declared workspace output `completed`. -/
def developEnv (assignment : String) (source : Dir) : Env :=
  ((Env.empty.with_string_input "assignment" assignment
      "the assignment to complete").with_workspace_input "workspace"
      (Workspace.mk source)
      "the workspace with tools to edit and test code").with_workspace_output
      "completed" "the workspace with the completed assignment"

/-- The prompt document of `develop`: the file `develop_prompt.md` of the
module's own source.  A constant: it does not depend on the assignment. -/
def developPrompt : File :=
  Dir.moduleSource.file "develop_prompt.md"

/-- `HelloDagger.develop(assignment, source)`: binds the environment and the
prompt file to the engine, extracts the `completed` workspace output, strips
`node_modules` from its source tree, re-runs the test gate on the result and
returns it only if the tests pass. -/
def develop (w : World) (assignment : String) (source : Dir) :
    Except Err Dir × List Event :=
  let environment := developEnv assignment source
  let prompt_file := developPrompt
  match w.llm environment prompt_file with
  | .error e => (.error e, [.llmRun environment prompt_file])
  | .ok postEnv =>
      match outputWorkspace postEnv "completed" with
      | .error e => (.error e, [.llmRun environment prompt_file])
      | .ok completed =>
          let completed_directory := completed.source.without_directory "node_modules"
          match test w completed_directory with
          | (.error e, tr) => (.error e, .llmRun environment prompt_file :: tr)
          | (.ok _, tr) =>
              (.ok completed_directory, .llmRun environment prompt_file :: tr)

/-- `HelloDagger.develop_issue(github_token, issue_id, repository, source)`:
reads the issue, uses its body verbatim as the assignment, runs `develop`,
then opens a pull request titled with the issue title whose body is the
assignment followed by a closing reference to the issue url, and returns the
pull request's url. -/
def develop_issue (w : World) (github_token : Secret) (issue_id : Nat)
    (repository : String) (source : Dir) : Except Err String × List Event :=
  match w.readIssue github_token repository issue_id with
  | .error e => (.error e, [.issueRead repository issue_id])
  | .ok issue =>
      let assignment := issue.body
      match develop w assignment source with
      | (.error e, tr) => (.error e, .issueRead repository issue_id :: tr)
      | (.ok feature, tr) =>
          let title := issue.title
          let url := issue.url
          let body := assignment ++ "\n\nCloses " ++ url
          match w.createPullRequest github_token repository title body feature with
          | .error e =>
              (.error e, (.issueRead repository issue_id :: tr) ++
                [.createPR repository title body feature])
          | .ok prUrl =>
              (.ok prUrl, (.issueRead repository issue_id :: tr) ++
                [.createPR repository title body feature])

/-- Whether the `name` slot of a binding is a declared output that was never
populated (the situation of an engine that reports completion with a missing
output). -/
def Env.outputUnpopulated (e : Env) (name : String) : Bool :=
  match e.slots.find? (fun s => s.name == name && s.direction == Direction.output) with
  | some s => s.value.isNone
  | none => false

/-- Whether a container recipe mounts a cache volume with the given mount
path and cache key anywhere in its chain. -/
def Container.mountsCache : Container → String → String → Prop
  | .base _, _, _ => False
  | .step c op, path, key => op = .withMountedCache path key ∨ c.mountsCache path key

/-! ### Concrete worlds used to instantiate the theorems -/

/-- Outcome of a command run that succeeds. -/
def okOutcome : ExecOutcome := ⟨0, "all tests passed", ""⟩

/-- Outcome of a command run that fails. -/
def failOutcome : ExecOutcome := ⟨1, "1 test failed", "exit status 1"⟩

/-- A small concrete source tree. -/
def sampleDir : Dir := .files [(["index.html"], "hello"), (["node_modules", "x"], "dep")]

/-- An engine result whose `completed` output slot is populated with a
workspace over `sampleDir`. -/
def completedEnv : Env :=
  ⟨[⟨"completed", .output, some (.workspace ⟨sampleDir⟩), "done"⟩]⟩

/-- An engine result whose declared `completed` output was never populated. -/
def unpopulatedEnv : Env :=
  ⟨[⟨"completed", .output, none, "done"⟩]⟩

/-- A concrete issue record. -/
def sampleIssue : Issue :=
  ⟨"Fix crash", "Fix crash on startup", "https://github.com/o/r/issues/42"⟩

/-- A world where every command succeeds, the engine populates `completed`,
the registry echoes the tag, and the tracker answers. -/
def passWorld : World where
  run := fun _ => okOutcome
  dirFiles := fun _ _ => []
  publishRef := fun _ tag => .ok tag
  llm := fun _ _ => .ok completedEnv
  readIssue := fun _ _ _ => .ok sampleIssue
  createPullRequest := fun _ _ _ _ _ => .ok "https://github.com/o/r/pull/7"
  moduleFiles := []
  rand := fun n => n

/-- Like `passWorld` but every command run fails. -/
def failTestWorld : World := { passWorld with run := fun _ => failOutcome }

/-- Like `passWorld` but the engine completes without populating the
`completed` output. -/
def missingOutputWorld : World := { passWorld with llm := fun _ _ => .ok unpopulatedEnv }

/-- Like `passWorld` but the issue read fails. -/
def readFailWorld : World :=
  { passWorld with readIssue := fun _ _ _ => .error (.trackerError "not found") }

/-- Like `passWorld` but the random stream is constant. -/
def constRandWorld : World := { passWorld with rand := fun _ => 0 }

/-! ### Helper lemmas on the control flow of the embedded methods -/

/-- If the engine call fails, `develop` propagates that failure; the trace is
the single engine call. -/
lemma develop_llm_error {w : World} {a : String} {s : Dir} {e : Err}
    (hllm : w.llm (developEnv a s) developPrompt = .error e) :
    develop w a s = (.error e, [.llmRun (developEnv a s) developPrompt]) := by
  simp only [develop]
  rw [hllm]

/-- If output extraction fails, `develop` propagates that failure. -/
lemma develop_out_error {w : World} {a : String} {s : Dir} {postEnv : Env} {e : Err}
    (hllm : w.llm (developEnv a s) developPrompt = .ok postEnv)
    (hout : outputWorkspace postEnv "completed" = .error e) :
    develop w a s = (.error e, [.llmRun (developEnv a s) developPrompt]) := by
  simp only [develop, hllm, hout]

/-- If the post-agent test run fails, `develop` propagates the exec failure
with its captured output, after the engine call and the test call. -/
lemma develop_test_fail {w : World} {a : String} {s : Dir} {postEnv : Env} {cw : Workspace}
    (hllm : w.llm (developEnv a s) developPrompt = .ok postEnv)
    (hout : outputWorkspace postEnv "completed" = .ok cw)
    (hx : (w.run (testContainer (cw.source.without_directory "node_modules"))).exitCode ≠ 0) :
    develop w a s =
      (.error (.execError
          (w.run (testContainer (cw.source.without_directory "node_modules"))).stdout
          (w.run (testContainer (cw.source.without_directory "node_modules"))).stderr),
        [.llmRun (developEnv a s) developPrompt,
          .execStdout (testContainer (cw.source.without_directory "node_modules"))]) := by
  simp only [develop, hllm, hout, test, containerStdout]
  rw [if_neg hx]

/-- If the post-agent test run passes, `develop` returns the completed
workspace's source with `node_modules` stripped. -/
lemma develop_test_pass {w : World} {a : String} {s : Dir} {postEnv : Env} {cw : Workspace}
    (hllm : w.llm (developEnv a s) developPrompt = .ok postEnv)
    (hout : outputWorkspace postEnv "completed" = .ok cw)
    (hx : (w.run (testContainer (cw.source.without_directory "node_modules"))).exitCode = 0) :
    develop w a s =
      (.ok (cw.source.without_directory "node_modules"),
        [.llmRun (developEnv a s) developPrompt,
          .execStdout (testContainer (cw.source.without_directory "node_modules"))]) := by
  simp only [develop, hllm, hout, test, containerStdout]
  rw [if_pos hx]

/-- The trace of `develop` always starts with the engine call on the
constructed binding and the fixed prompt file, and every later event is a
container-command evaluation. -/
lemma develop_trace_shape (w : World) (a : String) (s : Dir) :
    ∃ rest, (develop w a s).2 = Event.llmRun (developEnv a s) developPrompt :: rest
      ∧ ∀ ev ∈ rest, ∃ c, ev = Event.execStdout c := by
  cases hllm : w.llm (developEnv a s) developPrompt with
  | error e =>
      rw [develop_llm_error hllm]
      exact ⟨[], rfl, by simp⟩
  | ok postEnv =>
      cases hout : outputWorkspace postEnv "completed" with
      | error e =>
          rw [develop_out_error hllm hout]
          exact ⟨[], rfl, by simp⟩
      | ok cw =>
          by_cases hx : (w.run (testContainer (cw.source.without_directory "node_modules"))).exitCode = 0
          · rw [develop_test_pass hllm hout hx]
            exact ⟨[.execStdout (testContainer (cw.source.without_directory "node_modules"))],
              rfl, by simp⟩
          · rw [develop_test_fail hllm hout hx]
            exact ⟨[.execStdout (testContainer (cw.source.without_directory "node_modules"))],
              rfl, by simp⟩

/-- `develop` never calls the tracker: no pull-request creation event ever
appears in its trace. -/
lemma develop_no_createPR (w : World) (a : String) (s : Dir)
    (r t b : String) (d : Dir) : Event.createPR r t b d ∉ (develop w a s).2 := by
  obtain ⟨rest, hshape, hrest⟩ := develop_trace_shape w a s
  rw [hshape]
  intro hmem
  rcases List.mem_cons.mp hmem with h | h
  · exact Event.noConfusion h
  · obtain ⟨c, hc⟩ := hrest _ h
    exact Event.noConfusion hc

/-- The trace of `publish` always starts with the evaluation of the test
command. -/
lemma publish_trace_shape (w : World) (ρ : Nat) (s : Dir) :
    ∃ rest, (publish w ρ s).2 = Event.execStdout (testContainer s) :: rest := by
  simp only [publish, test]
  cases hcs : containerStdout w (testContainer s) with
  | error e => exact ⟨[], rfl⟩
  | ok out =>
      cases hp : w.publishRef (build s)
          ("ttl.sh/hello-dagger-" ++ toString (w.rand ρ % 10 ^ 8)) with
      | error e =>
          exact ⟨[.publishImage (build s)
            ("ttl.sh/hello-dagger-" ++ toString (w.rand ρ % 10 ^ 8))], rfl⟩
      | ok ref =>
          exact ⟨[.publishImage (build s)
            ("ttl.sh/hello-dagger-" ++ toString (w.rand ρ % 10 ^ 8))], rfl⟩

/-- If the test command fails, `publish` returns the exec failure and its
trace is the single test evaluation. -/
lemma publish_test_fail {w : World} {ρ : Nat} {s : Dir}
    (hx : (w.run (testContainer s)).exitCode ≠ 0) :
    publish w ρ s =
      (.error (.execError (w.run (testContainer s)).stdout (w.run (testContainer s)).stderr),
        [.execStdout (testContainer s)]) := by
  simp only [publish, test, containerStdout]
  rw [if_neg hx]

/-- If the test command passes and the registry accepts the tag, `publish`
returns the registry's reference. -/
lemma publish_test_pass {w : World} {ρ : Nat} {s : Dir} {ref : String}
    (hx : (w.run (testContainer s)).exitCode = 0)
    (hp : w.publishRef (build s) ("ttl.sh/hello-dagger-" ++ toString (w.rand ρ % 10 ^ 8)) = .ok ref) :
    publish w ρ s =
      (.ok ref,
        [.execStdout (testContainer s),
          .publishImage (build s) ("ttl.sh/hello-dagger-" ++ toString (w.rand ρ % 10 ^ 8))]) := by
  simp only [publish, test, containerStdout, hp]
  rw [if_pos hx]
  rfl

/-- An unpopulated declared output makes extraction fail with the
incomplete-run error. -/
lemma outputWorkspace_incomplete {e : Env} {name : String}
    (h : e.outputUnpopulated name = true) :
    outputWorkspace e name = .error (.incompleteRun name) := by
  unfold Env.outputUnpopulated at h
  unfold outputWorkspace
  cases hf : e.slots.find? (fun s => s.name == name && s.direction == Direction.output) with
  | none => rw [hf] at h; simp at h
  | some sl =>
      rw [hf] at h
      simp only [Option.isNone_iff_eq_none] at h
      simp [hf, h]

/-- Appending to a fixed string on the left is injective. -/
lemma string_append_left_cancel {p a b : String} (h : p ++ a = p ++ b) : a = b := by
  have h2 := congrArg String.data h
  rw [String.data_append, String.data_append] at h2
  exact String.ext (List.append_cancel_left h2)

/-- A string with the image-tag prefix is never empty. -/
lemma tag_ne_empty (t : String) : "ttl.sh/hello-dagger-" ++ t ≠ "" := by
  intro h
  have h2 := congrArg String.data h
  rw [String.data_append] at h2
  exact absurd (List.append_eq_nil.mp h2).1 (by decide)

/-! ### Claim theorems -/

/-- C1: For every source tree, `develop(assignment, source)` invokes the Build
Pipeline's test gate on the agent's completed workspace (with the
generated-dependency subtree `node_modules` stripped via `withoutPath`)
before returning it; if that test run fails, `develop` surfaces the
post-agent validation failure (the propagated test failure with its captured
output) and does not return the agent's workspace. -/
theorem develop_validates_before_return
    (w : World) (a : String) (s : Dir) (postEnv : Env) (cw : Workspace)
    (hllm : w.llm (developEnv a s) developPrompt = .ok postEnv)
    (hout : outputWorkspace postEnv "completed" = .ok cw) :
    Event.execStdout (testContainer (cw.source.without_directory "node_modules"))
        ∈ (develop w a s).2
    ∧ ((w.run (testContainer (cw.source.without_directory "node_modules"))).exitCode ≠ 0 →
        (develop w a s).1 =
          .error (.execError
            (w.run (testContainer (cw.source.without_directory "node_modules"))).stdout
            (w.run (testContainer (cw.source.without_directory "node_modules"))).stderr)
        ∧ ∀ d, (develop w a s).1 ≠ .ok d) := by
  by_cases hx : (w.run (testContainer (cw.source.without_directory "node_modules"))).exitCode = 0
  · rw [develop_test_pass hllm hout hx]
    exact ⟨by simp, fun hne => absurd hx hne⟩
  · rw [develop_test_fail hllm hout hx]
    exact ⟨by simp, fun _ => ⟨rfl, by simp⟩⟩

/-- Witness for C1: in the concrete world where the agent populates the
`completed` output over `sampleDir` but the re-run tests fail. -/
theorem develop_validates_before_return_witness :
    Event.execStdout (testContainer
        ((Workspace.mk sampleDir).source.without_directory "node_modules"))
        ∈ (develop failTestWorld "task" sampleDir).2
    ∧ ((failTestWorld.run (testContainer
          ((Workspace.mk sampleDir).source.without_directory "node_modules"))).exitCode ≠ 0 →
        (develop failTestWorld "task" sampleDir).1 =
          .error (.execError
            (failTestWorld.run (testContainer
              ((Workspace.mk sampleDir).source.without_directory "node_modules"))).stdout
            (failTestWorld.run (testContainer
              ((Workspace.mk sampleDir).source.without_directory "node_modules"))).stderr)
        ∧ ∀ d, (develop failTestWorld "task" sampleDir).1 ≠ .ok d) :=
  develop_validates_before_return failTestWorld "task" sampleDir completedEnv
    (Workspace.mk sampleDir) rfl rfl

/-- C2: For every source tree, `publish(source)` runs `test(source)` to
completion before attempting the image build step, and if `test` fails,
`publish` returns an error without ever invoking `build`. -/
theorem publish_tests_before_build (w : World) (ρ : Nat) (s : Dir) :
    (publish w ρ s).2.head? = some (.execStdout (testContainer s))
    ∧ ((w.run (testContainer s)).exitCode ≠ 0 →
        (publish w ρ s).1 =
          .error (.execError (w.run (testContainer s)).stdout
            (w.run (testContainer s)).stderr)
        ∧ ∀ c t, Event.publishImage c t ∉ (publish w ρ s).2) := by
  constructor
  · obtain ⟨rest, hr⟩ := publish_trace_shape w ρ s
    rw [hr]
    rfl
  · intro hx
    rw [publish_test_fail hx]
    exact ⟨rfl, by simp⟩

/-- Witness for C2: in the concrete world where the test command fails. -/
theorem publish_tests_before_build_witness :
    (publish failTestWorld 0 sampleDir).2.head? =
        some (.execStdout (testContainer sampleDir))
    ∧ ((failTestWorld.run (testContainer sampleDir)).exitCode ≠ 0 →
        (publish failTestWorld 0 sampleDir).1 =
          .error (.execError (failTestWorld.run (testContainer sampleDir)).stdout
            (failTestWorld.run (testContainer sampleDir)).stderr)
        ∧ ∀ c t, Event.publishImage c t ∉ (publish failTestWorld 0 sampleDir).2) :=
  publish_tests_before_build failTestWorld 0 sampleDir

/-- C3: For every issue record read by `developIssue`, the assignment passed
to the agent is the issue body verbatim, the submitted pull request has title
equal to the issue title and body equal to the assignment text followed by a
closing reference to the issue url, and `developIssue` returns the created
pull request's url. -/
theorem develop_issue_pr_fields
    (w : World) (tok : Secret) (iid : Nat) (repo : String) (s : Dir)
    (issue : Issue) (feature : Dir) (prUrl : String)
    (hread : w.readIssue tok repo iid = .ok issue)
    (hdev : (develop w issue.body s).1 = .ok feature)
    (hpr : w.createPullRequest tok repo issue.title
        (issue.body ++ "\n\nCloses " ++ issue.url) feature = .ok prUrl) :
    (develop_issue w tok iid repo s).1 = .ok prUrl
    ∧ Event.createPR repo issue.title (issue.body ++ "\n\nCloses " ++ issue.url) feature
        ∈ (develop_issue w tok iid repo s).2
    ∧ Event.llmRun (developEnv issue.body s) developPrompt
        ∈ (develop_issue w tok iid repo s).2 := by
  rcases hdd : develop w issue.body s with ⟨r, tr⟩
  have hr : r = .ok feature := by rw [hdd] at hdev; exact hdev
  subst hr
  obtain ⟨rest, hshape, -⟩ := develop_trace_shape w issue.body s
  rw [hdd] at hshape
  have hsh : tr = Event.llmRun (developEnv issue.body s) developPrompt :: rest := hshape
  simp only [develop_issue, hread, hdd, hpr]
  refine ⟨by trivial, by simp, ?_⟩
  rw [hsh]
  simp

/-- Witness for C3: in the all-success concrete world with `sampleIssue`. -/
theorem develop_issue_pr_fields_witness :
    (develop_issue passWorld ⟨"tok"⟩ 42 "https://github.com/o/r" sampleDir).1 =
        .ok "https://github.com/o/r/pull/7"
    ∧ Event.createPR "https://github.com/o/r" sampleIssue.title
        (sampleIssue.body ++ "\n\nCloses " ++ sampleIssue.url)
        (sampleDir.without_directory "node_modules")
        ∈ (develop_issue passWorld ⟨"tok"⟩ 42 "https://github.com/o/r" sampleDir).2
    ∧ Event.llmRun (developEnv sampleIssue.body sampleDir) developPrompt
        ∈ (develop_issue passWorld ⟨"tok"⟩ 42 "https://github.com/o/r" sampleDir).2 :=
  develop_issue_pr_fields passWorld ⟨"tok"⟩ 42 "https://github.com/o/r" sampleDir
    sampleIssue (sampleDir.without_directory "node_modules")
    "https://github.com/o/r/pull/7" rfl rfl rfl

/-- C4: For every agent run, if the execution engine reports completion but
the declared output slot `completed` was never populated, the orchestrator
raises the incomplete-run error and does not return a partially-valid
result. -/
theorem develop_incomplete_run
    (w : World) (a : String) (s : Dir) (postEnv : Env)
    (hllm : w.llm (developEnv a s) developPrompt = .ok postEnv)
    (hmiss : postEnv.outputUnpopulated "completed" = true) :
    (develop w a s).1 = .error (.incompleteRun "completed")
    ∧ ∀ d, (develop w a s).1 ≠ .ok d := by
  rw [develop_out_error hllm (outputWorkspace_incomplete hmiss)]
  exact ⟨rfl, by simp⟩

/-- Witness for C4: in the concrete world whose engine reports completion
with the `completed` slot declared but unpopulated. -/
theorem develop_incomplete_run_witness :
    (develop missingOutputWorld "task" sampleDir).1 = .error (.incompleteRun "completed")
    ∧ ∀ d, (develop missingOutputWorld "task" sampleDir).1 ≠ .ok d :=
  develop_incomplete_run missingOutputWorld "task" sampleDir unpopulatedEnv rfl rfl

/-- C5: For every invocation of `developIssue`, any failure in reading the
issue, running the agent, or post-agent validation propagates to the caller
unmodified, and no pull request is created in that case: the tracker's
`createPullRequest` is never reached on failure. -/
theorem develop_issue_no_pr_on_failure
    (w : World) (tok : Secret) (iid : Nat) (repo : String) (s : Dir) :
    (∀ e, w.readIssue tok repo iid = .error e →
      (develop_issue w tok iid repo s).1 = .error e
      ∧ ∀ r t b d, Event.createPR r t b d ∉ (develop_issue w tok iid repo s).2)
    ∧ (∀ issue e, w.readIssue tok repo iid = .ok issue →
        (develop w issue.body s).1 = .error e →
        (develop_issue w tok iid repo s).1 = .error e
        ∧ ∀ r t b d, Event.createPR r t b d ∉ (develop_issue w tok iid repo s).2) := by
  constructor
  · intro e hread
    simp only [develop_issue, hread]
    exact ⟨by trivial, by simp⟩
  · intro issue e hread hdev
    rcases hdd : develop w issue.body s with ⟨r, tr⟩
    have hr : r = .error e := by rw [hdd] at hdev; exact hdev
    subst hr
    simp only [develop_issue, hread, hdd]
    refine ⟨by trivial, ?_⟩
    intro r t b d hmem
    rcases List.mem_cons.mp hmem with h | h
    · exact Event.noConfusion h
    · have hno := develop_no_createPR w issue.body s r t b d
      rw [hdd] at hno
      exact hno h

/-- Witness for C5: in the concrete world whose issue read fails. -/
theorem develop_issue_no_pr_on_failure_witness :
    (∀ e, readFailWorld.readIssue ⟨"tok"⟩ "https://github.com/o/r" 42 = .error e →
      (develop_issue readFailWorld ⟨"tok"⟩ 42 "https://github.com/o/r" sampleDir).1 = .error e
      ∧ ∀ r t b d, Event.createPR r t b d ∉
          (develop_issue readFailWorld ⟨"tok"⟩ 42 "https://github.com/o/r" sampleDir).2)
    ∧ (∀ issue e, readFailWorld.readIssue ⟨"tok"⟩ "https://github.com/o/r" 42 = .ok issue →
        (develop readFailWorld issue.body sampleDir).1 = .error e →
        (develop_issue readFailWorld ⟨"tok"⟩ 42 "https://github.com/o/r" sampleDir).1 = .error e
        ∧ ∀ r t b d, Event.createPR r t b d ∉
            (develop_issue readFailWorld ⟨"tok"⟩ 42 "https://github.com/o/r" sampleDir).2) :=
  develop_issue_no_pr_on_failure readFailWorld ⟨"tok"⟩ 42 "https://github.com/o/r" sampleDir

/-- C6: For every source tree, `test(source)` runs the test command inside
the environment produced by `buildEnvironment(source)` and returns that
command's captured output text; on non-zero exit of the test command it fails
with the test failure carrying the captured stdout/stderr, and this same
operation is the single validation gate used by both `publish` and
`develop`. -/
theorem test_gate_spec (w : World) (ρ : Nat) (a : String) (s : Dir) :
    testContainer s = (build_env s).with_exec ["npm", "run", "test:unit", "run"]
    ∧ ((w.run (testContainer s)).exitCode = 0 →
        (test w s).1 = .ok (w.run (testContainer s)).stdout)
    ∧ ((w.run (testContainer s)).exitCode ≠ 0 →
        (test w s).1 = .error (.execError (w.run (testContainer s)).stdout
          (w.run (testContainer s)).stderr))
    ∧ Event.execStdout (testContainer s) ∈ (publish w ρ s).2
    ∧ (∀ d, (develop w a s).1 = .ok d →
        Event.execStdout (testContainer d) ∈ (develop w a s).2) := by
  refine ⟨rfl, ?_, ?_, ?_, ?_⟩
  · intro hx
    simp [test, containerStdout, hx]
  · intro hx
    simp [test, containerStdout, hx]
  · obtain ⟨rest, hr⟩ := publish_trace_shape w ρ s
    rw [hr]
    exact List.mem_cons_self _ _
  · intro d hok
    cases hllm : w.llm (developEnv a s) developPrompt with
    | error e =>
        rw [develop_llm_error hllm] at hok
        exact absurd hok (by simp)
    | ok postEnv =>
        cases hout : outputWorkspace postEnv "completed" with
        | error e =>
            rw [develop_out_error hllm hout] at hok
            exact absurd hok (by simp)
        | ok cw =>
            by_cases hx : (w.run (testContainer
                (cw.source.without_directory "node_modules"))).exitCode = 0
            · rw [develop_test_pass hllm hout hx] at hok ⊢
              have hd : cw.source.without_directory "node_modules" = d := by
                simpa using hok
              subst hd
              simp
            · rw [develop_test_fail hllm hout hx] at hok
              exact absurd hok (by simp)

/-- Witness for C6: in the all-success concrete world. -/
theorem test_gate_spec_witness :
    testContainer sampleDir = (build_env sampleDir).with_exec ["npm", "run", "test:unit", "run"]
    ∧ ((passWorld.run (testContainer sampleDir)).exitCode = 0 →
        (test passWorld sampleDir).1 = .ok (passWorld.run (testContainer sampleDir)).stdout)
    ∧ ((passWorld.run (testContainer sampleDir)).exitCode ≠ 0 →
        (test passWorld sampleDir).1 =
          .error (.execError (passWorld.run (testContainer sampleDir)).stdout
            (passWorld.run (testContainer sampleDir)).stderr))
    ∧ Event.execStdout (testContainer sampleDir) ∈ (publish passWorld 0 sampleDir).2
    ∧ (∀ d, (develop passWorld "task" sampleDir).1 = .ok d →
        Event.execStdout (testContainer d) ∈ (develop passWorld "task" sampleDir).2) :=
  test_gate_spec passWorld 0 "task" sampleDir

/-- C7 as stated is false: the tag suffix comes from `random.randrange(10**8)`,
so two consecutive calls of `publish` can draw the same value and return the
same reference.  In the world `constRandWorld` (constant random stream,
passing tests, registry echoing the tag) both consecutive calls return the
reference `ttl.sh/hello-dagger-0`. -/
theorem publish_consecutive_refs_equal :
    (constRandWorld.run (testContainer sampleDir)).exitCode = 0
    ∧ (publish constRandWorld 0 sampleDir).1 = .ok "ttl.sh/hello-dagger-0"
    ∧ (publish constRandWorld 1 sampleDir).1 = .ok "ttl.sh/hello-dagger-0" :=
  ⟨rfl, rfl, rfl⟩

/-- C7 (amended): for every source tree whose test suite passes, `publish`
returns a non-empty reference of the form
`ttl.sh/hello-dagger-` followed by the drawn suffix, and two consecutive
calls return distinct references provided the two random draws yield
distinct suffix strings and the registry returns the tag as the
reference. -/
theorem publish_refs_unique
    (w : World) (ρ₁ ρ₂ : Nat) (s : Dir)
    (hreg : ∀ c t, w.publishRef c t = .ok t)
    (hne : toString (w.rand ρ₁ % 10 ^ 8) ≠ toString (w.rand ρ₂ % 10 ^ 8))
    (hpass : (w.run (testContainer s)).exitCode = 0) :
    (publish w ρ₁ s).1 = .ok ("ttl.sh/hello-dagger-" ++ toString (w.rand ρ₁ % 10 ^ 8))
    ∧ (publish w ρ₂ s).1 = .ok ("ttl.sh/hello-dagger-" ++ toString (w.rand ρ₂ % 10 ^ 8))
    ∧ "ttl.sh/hello-dagger-" ++ toString (w.rand ρ₁ % 10 ^ 8) ≠ ""
    ∧ "ttl.sh/hello-dagger-" ++ toString (w.rand ρ₂ % 10 ^ 8) ≠ ""
    ∧ "ttl.sh/hello-dagger-" ++ toString (w.rand ρ₁ % 10 ^ 8)
        ≠ "ttl.sh/hello-dagger-" ++ toString (w.rand ρ₂ % 10 ^ 8) := by
  refine ⟨?_, ?_, tag_ne_empty _, tag_ne_empty _, ?_⟩
  · rw [publish_test_pass hpass (hreg _ _)]
  · rw [publish_test_pass hpass (hreg _ _)]
  · intro h
    exact hne (string_append_left_cancel h)

/-- Witness for C7 (amended): in the all-success concrete world whose random
stream is the identity, the draws at positions 0 and 1 differ. -/
theorem publish_refs_unique_witness :
    (publish passWorld 0 sampleDir).1 =
        .ok ("ttl.sh/hello-dagger-" ++ toString (passWorld.rand 0 % 10 ^ 8))
    ∧ (publish passWorld 1 sampleDir).1 =
        .ok ("ttl.sh/hello-dagger-" ++ toString (passWorld.rand 1 % 10 ^ 8))
    ∧ "ttl.sh/hello-dagger-" ++ toString (passWorld.rand 0 % 10 ^ 8) ≠ ""
    ∧ "ttl.sh/hello-dagger-" ++ toString (passWorld.rand 1 % 10 ^ 8) ≠ ""
    ∧ "ttl.sh/hello-dagger-" ++ toString (passWorld.rand 0 % 10 ^ 8)
        ≠ "ttl.sh/hello-dagger-" ++ toString (passWorld.rand 1 % 10 ^ 8) :=
  publish_refs_unique passWorld 0 1 sampleDir (fun _ _ => rfl) (by decide) rfl

/-- C8: `buildEnvironment` is deterministic and idempotent: on identical
source, two calls construct the same environment, which consequently
evaluates identically (the second call cannot newly fail), and the
environment mounts the dependency cache at `/root/.npm` keyed by the stable
identifier `node`, so repeated invocations reuse the cache. -/
theorem build_env_deterministic_cached
    (w : World) (s₁ s₂ : Dir) (hs : s₁ = s₂) :
    build_env s₁ = build_env s₂
    ∧ containerStdout w (build_env s₁) = containerStdout w (build_env s₂)
    ∧ (build_env s₁).mountsCache "/root/.npm" "node" := by
  subst hs
  refine ⟨rfl, rfl, ?_⟩
  simp [build_env, Container.mountsCache, Container.with_exec, Container.with_workdir,
    Container.with_mounted_cache, Container.with_directory]

/-- Witness for C8: at the concrete sample source tree. -/
theorem build_env_deterministic_cached_witness :
    build_env sampleDir = build_env sampleDir
    ∧ containerStdout passWorld (build_env sampleDir) =
        containerStdout passWorld (build_env sampleDir)
    ∧ (build_env sampleDir).mountsCache "/root/.npm" "node" :=
  build_env_deterministic_cached passWorld sampleDir sampleDir rfl

/-- C9: `develop` never mutates its input source directory: the workspace
handed to the engine wraps the source tree unchanged, and the directory
`develop` returns is derived solely from the agent's `completed` workspace
output with the `node_modules` subtree removed (every file of the result is a
file of the completed output, and none lies under `node_modules`). -/
theorem develop_frame
    (w : World) (a : String) (s : Dir) (postEnv : Env) (cw : Workspace)
    (hllm : w.llm (developEnv a s) developPrompt = .ok postEnv)
    (hout : outputWorkspace postEnv "completed" = .ok cw)
    (hpass : (w.run (testContainer (cw.source.without_directory "node_modules"))).exitCode = 0) :
    (develop w a s).1 = .ok (cw.source.without_directory "node_modules")
    ∧ (∀ f ∈ (cw.source.without_directory "node_modules").resolve w,
        f.1.head? ≠ some "node_modules")
    ∧ (∀ f ∈ (cw.source.without_directory "node_modules").resolve w,
        f ∈ cw.source.resolve w)
    ∧ (developEnv a s).slots =
        [⟨"assignment", .input, some (.str a), "the assignment to complete"⟩,
          ⟨"workspace", .input, some (.workspace ⟨s⟩),
            "the workspace with tools to edit and test code"⟩,
          ⟨"completed", .output, none, "the workspace with the completed assignment"⟩] := by
  refine ⟨?_, ?_, ?_, rfl⟩
  · rw [develop_test_pass hllm hout hpass]
  · intro f hf
    simp only [Dir.without_directory, Dir.resolve, List.mem_filter] at hf
    simpa using hf.2
  · intro f hf
    simp only [Dir.without_directory, Dir.resolve, List.mem_filter] at hf
    exact hf.1

/-- Witness for C9: in the all-success concrete world. -/
theorem develop_frame_witness :
    (develop passWorld "task" sampleDir).1 =
        .ok ((Workspace.mk sampleDir).source.without_directory "node_modules")
    ∧ (∀ f ∈ ((Workspace.mk sampleDir).source.without_directory "node_modules").resolve passWorld,
        f.1.head? ≠ some "node_modules")
    ∧ (∀ f ∈ ((Workspace.mk sampleDir).source.without_directory "node_modules").resolve passWorld,
        f ∈ (Workspace.mk sampleDir).source.resolve passWorld)
    ∧ (developEnv "task" sampleDir).slots =
        [⟨"assignment", .input, some (.str "task"), "the assignment to complete"⟩,
          ⟨"workspace", .input, some (.workspace ⟨sampleDir⟩),
            "the workspace with tools to edit and test code"⟩,
          ⟨"completed", .output, none, "the workspace with the completed assignment"⟩] :=
  develop_frame passWorld "task" sampleDir completedEnv (Workspace.mk sampleDir) rfl rfl rfl

/-- C10: The prompt document handed to the execution engine by `develop` is
the fixed file `develop_prompt.md` of the module's own source, independent of
the assignment: two invocations with different assignments hand the engine
the identical prompt file, and the assignment reaches the engine only through
the `assignment` input slot of the environment binding. -/
theorem develop_prompt_independent (w : World) (a₁ a₂ : String) (s : Dir) :
    developPrompt = Dir.moduleSource.file "develop_prompt.md"
    ∧ (∃ r, (develop w a₁ s).2 = Event.llmRun (developEnv a₁ s) developPrompt :: r)
    ∧ (∃ r, (develop w a₂ s).2 = Event.llmRun (developEnv a₂ s) developPrompt :: r)
    ∧ (∀ e f, Event.llmRun e f ∈ (develop w a₁ s).2 →
        f = developPrompt ∧ e = developEnv a₁ s)
    ∧ (developEnv a₁ s).slots =
        [⟨"assignment", .input, some (.str a₁), "the assignment to complete"⟩,
          ⟨"workspace", .input, some (.workspace ⟨s⟩),
            "the workspace with tools to edit and test code"⟩,
          ⟨"completed", .output, none, "the workspace with the completed assignment"⟩] := by
  obtain ⟨r₁, h₁, hr₁⟩ := develop_trace_shape w a₁ s
  obtain ⟨r₂, h₂, -⟩ := develop_trace_shape w a₂ s
  refine ⟨rfl, ⟨r₁, h₁⟩, ⟨r₂, h₂⟩, ?_, rfl⟩
  intro e f hmem
  rw [h₁] at hmem
  rcases List.mem_cons.mp hmem with h | h
  · obtain ⟨he, hf⟩ := Event.llmRun.inj h
    exact ⟨hf, he⟩
  · obtain ⟨c, hc⟩ := hr₁ _ h
    exact Event.noConfusion hc

/-- Witness for C10: at two concrete distinct assignments. -/
theorem develop_prompt_independent_witness :
    developPrompt = Dir.moduleSource.file "develop_prompt.md"
    ∧ (∃ r, (develop passWorld "add a logout button" sampleDir).2 =
        Event.llmRun (developEnv "add a logout button" sampleDir) developPrompt :: r)
    ∧ (∃ r, (develop passWorld "fix the crash" sampleDir).2 =
        Event.llmRun (developEnv "fix the crash" sampleDir) developPrompt :: r)
    ∧ (∀ e f, Event.llmRun e f ∈ (develop passWorld "add a logout button" sampleDir).2 →
        f = developPrompt ∧ e = developEnv "add a logout button" sampleDir)
    ∧ (developEnv "add a logout button" sampleDir).slots =
        [⟨"assignment", .input, some (.str "add a logout button"),
            "the assignment to complete"⟩,
          ⟨"workspace", .input, some (.workspace ⟨sampleDir⟩),
            "the workspace with tools to edit and test code"⟩,
          ⟨"completed", .output, none, "the workspace with the completed assignment"⟩] :=
  develop_prompt_independent passWorld "add a logout button" "fix the crash" sampleDir

end HelloDagger
